import Mathlib

/-!
Shallow embedding of the Pinata Go SDK (files and upload services).

The HTTP transport is modelled as a function from requests to either a
transport error or a pair of status code and response body.  Each SDK
operation is translated from the Go source into a pure function that
returns the configuration it ran against, the list of side effects it
performed (HTTP requests issued, temporary files created and removed),
and its Go-style outcome (value, error, or nil-pointer dereference).
External library behaviour (JSON encoding and decoding, base64 decoding)
is passed in as function parameters.
-/

set_option linter.unusedVariables false
set_option linter.unreachableTactic false
set_option linter.unusedTactic false

/-- Configuration for the SDK client, from `pinata/types/types.go`.
The Go `map[string]string` of custom headers is modelled as an
association list. -/
structure Config where
  PinataJWT : String
  PinataGateway : String
  PinataGatewayKey : String
  CustomHeaders : List (String × String)
  APIUrl : String
  UploadUrl : String
  deriving DecidableEq, Repr

/-- Flat JSON values appearing in the request payloads built by the SDK. -/
inductive JVal where
  | jnum : Int → JVal
  | jstr : String → JVal
  | jbool : Bool → JVal
  | jarr : List String → JVal
  | jmap : List (String × String) → JVal
  deriving DecidableEq, Repr

/-- Body of an HTTP request: empty, a JSON object (field list), or a
multipart form with its `WriteField` fields and its file parts
(filename and content). -/
inductive ReqBody where
  | empty : ReqBody
  | jsonPayload : List (String × JVal) → ReqBody
  | multipart : List (String × String) → List (String × String) → ReqBody
  deriving DecidableEq, Repr

/-- An HTTP request as assembled by the SDK. -/
structure HttpRequest where
  method : String
  url : String
  headers : List (String × String)
  body : ReqBody
  deriving DecidableEq, Repr

/-- Observable side effects of an operation. -/
inductive Event where
  | httpReq : HttpRequest → Event
  | tmpCreate : String → Event
  | tmpRemove : String → Event
  deriving DecidableEq, Repr

/-- Outcome of a Go function returning `(T, error)`: a value, an error,
or a runtime nil-pointer dereference. -/
inductive GoOut (α : Type) where
  | ok : α → GoOut α
  | err : String → GoOut α
  | nilDeref : GoOut α
  deriving DecidableEq, Repr

/-- Result of running one operation: the configuration after the call,
the ordered side effects, and the outcome. -/
structure OpOut (α : Type) where
  cfg : Config
  events : List Event
  res : GoOut α
  deriving DecidableEq, Repr

/-- The HTTP transport: a transport-level error or status code and body. -/
abbrev World := HttpRequest → Except String (Nat × String)

/-- A file stored on Pinata, from `pinata/types/types.go`. -/
structure File where
  ID : String
  Name : String
  CID : String
  Size : Int
  CreatedAt : String
  NumberOfFiles : Int
  MimeType : String
  GroupID : Option String
  KeyValues : List (String × String)
  Vectorized : Bool
  Network : String
  IsDuplicate : Bool
  deriving DecidableEq, Repr

/-- Response for listing files. -/
structure FileListResponse where
  Files : List File
  NextPageToken : String
  deriving DecidableEq, Repr

/-- Response for deleting one file. -/
structure DeleteResponse where
  ID : String
  Status : String
  deriving DecidableEq, Repr

/-- A CID swap record. -/
structure SwapResponse where
  MappedCID : String
  CreatedAt : String
  deriving DecidableEq, Repr

/-- Response for pinning by hash. -/
structure PinByHashResponse where
  ID : String
  CID : String
  Status : String
  Name : String
  DateQueued : String
  KeyValues : List (String × String)
  HostNodes : List String
  GroupID : Option String
  deriving DecidableEq, Repr

/-- Response for vectorizing a file. -/
structure VectorizeResponse where
  Status : Bool
  deriving DecidableEq, Repr

/-- Response from an upload. -/
structure UploadResponse where
  ID : String
  Name : String
  CID : String
  Size : Int
  CreatedAt : String
  NumberOfFiles : Int
  MimeType : String
  GroupID : Option String
  KeyValues : List (String × String)
  Vectorized : Bool
  Network : String
  IsDuplicate : Bool
  deriving DecidableEq, Repr

/-- Options for file uploads, from `pinata/upload/types.go`. -/
structure FileOptions where
  FileName : String
  GroupID : String
  KeyValues : List (String × String)
  Vectorize : Bool
  deriving DecidableEq, Repr

/-- Options for JSON uploads. -/
structure JSONOptions where
  Name : String
  GroupID : String
  KeyValues : List (String × String)
  Vectorize : Bool
  deriving DecidableEq, Repr

/-- Options for base64 uploads. -/
structure Base64Options where
  Name : String
  GroupID : String
  KeyValues : List (String × String)
  Vectorize : Bool
  deriving DecidableEq, Repr

/-- Options for URL uploads. -/
structure URLOptions where
  Name : String
  GroupID : String
  KeyValues : List (String × String)
  Vectorize : Bool
  deriving DecidableEq, Repr

/-- Options for creating a signed upload URL. -/
structure SignedUploadOptions where
  Date : Int
  Expires : Int
  GroupID : String
  Name : String
  KeyValues : List (String × String)
  Vectorize : Bool
  MaxFileSize : Int
  MimeTypes : List String
  deriving DecidableEq, Repr

/-- Options for creating an access link, from `pinata/types/types.go`. -/
structure AccessLinkOptions where
  CID : String
  Date : Int
  Expires : Int
  Gateway : String
  deriving DecidableEq, Repr

/-- Options for listing files, from the files package. -/
structure ListOptions where
  Name : String
  Group : String
  NoGroup : Bool
  CID : String
  CIDPending : Bool
  MimeType : String
  KeyValues : List (String × String)
  Order : String
  Limit : Int
  PageToken : String
  deriving DecidableEq, Repr

/-- Options for updating file metadata. -/
structure UpdateOptions where
  ID : String
  Name : String
  KeyValues : List (String × String)
  deriving DecidableEq, Repr

/-- Options for creating a CID swap. -/
structure SwapOptions where
  CID : String
  SwapCID : String
  deriving DecidableEq, Repr

/-- Options for reading the swap history. -/
structure SwapHistoryOptions where
  CID : String
  Domain : String
  deriving DecidableEq, Repr

/-- Options for pinning an existing CID. -/
structure PinByHashOptions where
  CID : String
  Name : String
  GroupID : String
  KeyValues : List (String × String)
  HostNodes : List String
  deriving DecidableEq, Repr

/-- An open file handle: its path and content.  `Stat` and `Seek` on a
valid handle are modelled as always succeeding. -/
structure FsFile where
  name : String
  content : String
  deriving DecidableEq, Repr

/-- Error message for a transport failure, as formatted by the Go code. -/
def sendErrMsg (e : String) : String := "failed to send request: " ++ e

/-- Error message for a non-200 response, as formatted by the Go code. -/
def apiErrMsg (st : Nat) (body : String) : String :=
  "API error (status " ++ toString st ++ "): " ++ body

/-- Error message for a JSON decoding failure. -/
def decodeErrMsg (e : String) : String := "failed to decode response: " ++ e

/-- The response-handling block repeated in every Go service method:
send the request, fail on transport errors, fail with status and body on
a non-200 status, otherwise decode the JSON envelope and return its
`data` field. -/
def finish {α : Type} (world : World) (decode : String → Except String α)
    (req : HttpRequest) : GoOut α :=
  match world req with
  | .error e => .err (sendErrMsg e)
  | .ok (st, body) =>
    if st ≠ 200 then .err (apiErrMsg st body)
    else
      match decode body with
      | .error e => .err (decodeErrMsg e)
      | .ok v => .ok v

/-- Response handling for methods that return only an error and ignore
the body on success (`DeleteSwap`, `CancelPinRequest`). -/
def finishNoBody (world : World) (req : HttpRequest) : GoOut Unit :=
  match world req with
  | .error e => .err (sendErrMsg e)
  | .ok (st, body) =>
    if st ≠ 200 then .err (apiErrMsg st body) else .ok ()

/-- Headers set by the files-service methods: Authorization, then
Content-Type, then the configured custom headers. -/
def authJsonHeaders (cfg : Config) : List (String × String) :=
  [("Authorization", "Bearer " ++ cfg.PinataJWT),
   ("Content-Type", "application/json")] ++ cfg.CustomHeaders

/-- Headers set by the multipart upload methods. The random multipart
boundary is elided from the Content-Type value. -/
def uploadHeaders (cfg : Config) : List (String × String) :=
  [("Content-Type", "multipart/form-data"),
   ("Authorization", "Bearer " ++ cfg.PinataJWT)] ++ cfg.CustomHeaders

/-- Headers set by `CreateSignedURL`: Content-Type, then Authorization,
then the custom headers. -/
def signHeaders (cfg : Config) : List (String × String) :=
  [("Content-Type", "application/json"),
   ("Authorization", "Bearer " ++ cfg.PinataJWT)] ++ cfg.CustomHeaders

/-- Model of `url.Values.Encode`: join the parameters with `=` and `&`.
Percent-escaping and key sorting of the Go standard library are elided;
no claim depends on them. -/
def encodeQuery : List (String × String) → String
  | [] => ""
  | [(k, v)] => k ++ "=" ++ v
  | (k, v) :: rest => k ++ "=" ++ v ++ "&" ++ encodeQuery rest

/-- Model of Go `filepath.Base`: the last non-empty path component,
`"."` for the empty path, `"/"` for a path of only slashes. -/
def baseName (p : String) : String :=
  if p = "" then "."
  else
    match (p.splitOn "/").reverse.find? (fun s => s ≠ "") with
    | some s => s
    | none => "/"

/-- Look up a key in a JSON payload field list. -/
def getField : List (String × JVal) → String → Option JVal
  | [], _ => none
  | (k, v) :: rest, key => if k = key then some v else getField rest key

/-- Whether a form-field list contains a field of the given name. -/
def hasKeyStr : List (String × String) → String → Bool
  | [], _ => false
  | (k, _) :: rest, key => if k = key then true else hasKeyStr rest key

/-- Number of HTTP requests in an event trace. -/
def httpCount (evs : List Event) : Nat :=
  (evs.filter fun e => match e with | .httpReq _ => true | _ => false).length

/-- The HTTP requests of an event trace, in order. -/
def httpReqs (evs : List Event) : List HttpRequest :=
  evs.filterMap fun e => match e with | .httpReq r => some r | _ => none

/-- One string occurs inside another. -/
def strContains (s t : String) : Prop := ∃ a b, s = a ++ t ++ b

/-- A request on which the transport fails or the server answers with a
status other than 200. -/
def failing (world : World) (r : HttpRequest) : Prop :=
  (∃ e, world r = .error e) ∨ (∃ st body, world r = .ok (st, body) ∧ st ≠ 200)

/-- A request that the server answers with status 200. -/
def httpOk (world : World) (r : HttpRequest) : Prop :=
  ∃ body, world r = .ok (200, body)

/-- An operation result with config preserved and no HTTP call made. -/
def noCall {α : Type} (cfg : Config) (msg : String) : OpOut α :=
  ⟨cfg, [], .err msg⟩

/-- An operation result consisting of exactly one HTTP request. -/
def single {α : Type} (cfg : Config) (req : HttpRequest) (r : GoOut α) : OpOut α :=
  ⟨cfg, [.httpReq req], r⟩

/-- Request built by `files.PrivateService.Get`. -/
def getRequest (cfg : Config) (id : String) : HttpRequest :=
  { method := "GET"
    url := cfg.APIUrl ++ "/files/private/" ++ id
    headers := authJsonHeaders cfg
    body := .empty }

/-- Get retrieves a file by ID from the private IPFS network. -/
def filesPrivateGet (cfg : Config) (world : World)
    (decode : String → Except String (Option File)) (id : String) :
    OpOut (Option File) :=
  single cfg (getRequest cfg id) (finish world decode (getRequest cfg id))

/-- Query parameters built by `files.PrivateService.List`. -/
def listQueryParams (o : ListOptions) : List (String × String) :=
  (if o.Name ≠ "" then [("name", o.Name)] else []) ++
  (if o.Group ≠ "" then [("group", o.Group)] else []) ++
  (if o.NoGroup then [("group", "null")] else []) ++
  (if o.CID ≠ "" then [("cid", o.CID)] else []) ++
  (if o.CIDPending then [("cidPending", "true")] else []) ++
  (if o.MimeType ≠ "" then [("mimeType", o.MimeType)] else []) ++
  (if o.Order ≠ "" then [("order", o.Order)] else []) ++
  (if o.Limit > 0 then [("limit", toString o.Limit)] else []) ++
  (if o.PageToken ≠ "" then [("pageToken", o.PageToken)] else []) ++
  (if o.KeyValues ≠ [] then
    o.KeyValues.map (fun kv => ("keyvalues[" ++ kv.1 ++ "]", kv.2)) else [])

/-- Request built by `files.PrivateService.List`. -/
def listRequest (cfg : Config) (opts : Option ListOptions) : HttpRequest :=
  let base := cfg.APIUrl ++ "/files/private"
  let params := match opts with | none => [] | some o => listQueryParams o
  { method := "GET"
    url := if params = [] then base else base ++ "?" ++ encodeQuery params
    headers := authJsonHeaders cfg
    body := .empty }

/-- List retrieves a list of files from the private IPFS network. -/
def filesPrivateList (cfg : Config) (world : World)
    (decode : String → Except String (Option FileListResponse))
    (opts : Option ListOptions) : OpOut (Option FileListResponse) :=
  single cfg (listRequest cfg opts) (finish world decode (listRequest cfg opts))

/-- JSON payload marshalled from `UpdateOptions` (the ID is excluded by
its `json:"-"` tag; name and keyvalues carry `omitempty`). -/
def updatePayload (o : UpdateOptions) : List (String × JVal) :=
  (if o.Name ≠ "" then [("name", .jstr o.Name)] else []) ++
  (if o.KeyValues ≠ [] then [("keyvalues", .jmap o.KeyValues)] else [])

/-- Request built by `files.PrivateService.Update`. -/
def updateRequest (cfg : Config) (o : UpdateOptions) : HttpRequest :=
  { method := "PUT"
    url := cfg.APIUrl ++ "/files/private/" ++ o.ID
    headers := authJsonHeaders cfg
    body := .jsonPayload (updatePayload o) }

/-- Update updates file metadata. -/
def filesPrivateUpdate (cfg : Config) (world : World)
    (decode : String → Except String (Option File))
    (opts : Option UpdateOptions) : OpOut (Option File) :=
  match opts with
  | none => noCall cfg "file ID is required"
  | some o =>
    if o.ID = "" then noCall cfg "file ID is required"
    else single cfg (updateRequest cfg o) (finish world decode (updateRequest cfg o))

/-- Request built by the per-ID loop of `Delete`; the network segment is
`"private"` or `"public"`. -/
def deleteRequest (cfg : Config) (network : String) (id : String) : HttpRequest :=
  { method := "DELETE"
    url := cfg.APIUrl ++ "/files/" ++ network ++ "/" ++ id
    headers := authJsonHeaders cfg
    body := .empty }

/-- The per-ID loop of `Delete`: issue one DELETE per ID, abort on the
first transport failure or non-200 status, and on success append a
client-side `DeleteResponse` with status `"deleted"`. -/
def deleteLoop (cfg : Config) (world : World) (network : String) :
    List String → List DeleteResponse → List Event × GoOut (List DeleteResponse)
  | [], acc => ([], .ok acc)
  | id :: rest, acc =>
    let req := deleteRequest cfg network id
    match world req with
    | .error e => ([.httpReq req], .err (sendErrMsg e))
    | .ok (st, body) =>
      if st ≠ 200 then ([.httpReq req], .err (apiErrMsg st body))
      else
        let next := deleteLoop cfg world network rest (acc ++ [⟨id, "deleted"⟩])
        (.httpReq req :: next.1, next.2)

/-- Delete removes files by their IDs on the private network. -/
def filesPrivateDelete (cfg : Config) (world : World) (ids : List String) :
    OpOut (List DeleteResponse) :=
  if ids = [] then noCall cfg "at least one file ID is required"
  else
    let core := deleteLoop cfg world "private" ids []
    ⟨cfg, core.1, core.2⟩

/-- Delete removes files by their IDs on the public network. -/
def filesPublicDelete (cfg : Config) (world : World) (ids : List String) :
    OpOut (List DeleteResponse) :=
  if ids = [] then noCall cfg "at least one file ID is required"
  else
    let core := deleteLoop cfg world "public" ids []
    ⟨cfg, core.1, core.2⟩

/-- Request built by `files.PrivateService.AddSwap`. -/
def addSwapRequest (cfg : Config) (o : SwapOptions) : HttpRequest :=
  { method := "PUT"
    url := cfg.APIUrl ++ "/files/private/swap/" ++ o.CID
    headers := authJsonHeaders cfg
    body := .jsonPayload [("swap_cid", .jstr o.SwapCID)] }

/-- AddSwap creates a CID swap. -/
def filesPrivateAddSwap (cfg : Config) (world : World)
    (decode : String → Except String (Option SwapResponse))
    (opts : Option SwapOptions) : OpOut (Option SwapResponse) :=
  match opts with
  | none => noCall cfg "CID and swap CID are required"
  | some o =>
    if o.CID = "" ∨ o.SwapCID = "" then noCall cfg "CID and swap CID are required"
    else single cfg (addSwapRequest cfg o) (finish world decode (addSwapRequest cfg o))

/-- Request built by `files.PrivateService.GetSwapHistory`; `esc` models
`url.QueryEscape`. -/
def swapHistoryRequest (cfg : Config) (esc : String → String)
    (o : SwapHistoryOptions) : HttpRequest :=
  { method := "GET"
    url := cfg.APIUrl ++ "/files/private/swap/" ++ o.CID ++ "?domain=" ++ esc o.Domain
    headers := authJsonHeaders cfg
    body := .empty }

/-- GetSwapHistory retrieves the swap history for a CID. -/
def filesPrivateGetSwapHistory (cfg : Config) (world : World)
    (esc : String → String)
    (decode : String → Except String (List SwapResponse))
    (opts : Option SwapHistoryOptions) : OpOut (List SwapResponse) :=
  match opts with
  | none => noCall cfg "CID and domain are required"
  | some o =>
    if o.CID = "" ∨ o.Domain = "" then noCall cfg "CID and domain are required"
    else single cfg (swapHistoryRequest cfg esc o)
      (finish world decode (swapHistoryRequest cfg esc o))

/-- Request built by `files.PrivateService.DeleteSwap`. -/
def deleteSwapRequest (cfg : Config) (cid : String) : HttpRequest :=
  { method := "DELETE"
    url := cfg.APIUrl ++ "/files/private/swap/" ++ cid
    headers := authJsonHeaders cfg
    body := .empty }

/-- DeleteSwap removes a CID swap. -/
def filesPrivateDeleteSwap (cfg : Config) (world : World) (cid : String) :
    OpOut Unit :=
  if cid = "" then noCall cfg "CID is required"
  else single cfg (deleteSwapRequest cfg cid) (finishNoBody world (deleteSwapRequest cfg cid))

/-- The gateway used by `CreateAccessLink`: the option's gateway when
non-empty, the configured gateway otherwise. -/
def accessLinkGateway (cfg : Config) (o : AccessLinkOptions) : String :=
  if o.Gateway = "" then cfg.PinataGateway else o.Gateway

/-- JSON payload built by `CreateAccessLink`; `now` models
`time.Now().Unix()`. -/
def accessLinkPayload (cfg : Config) (now : Int) (o : AccessLinkOptions) :
    List (String × JVal) :=
  let date := if o.Date = 0 then now else o.Date
  [("url", .jstr ("https://" ++ accessLinkGateway cfg o ++ ".mypinata.cloud/files/" ++ o.CID)),
   ("date", .jnum date),
   ("expires", .jnum o.Expires),
   ("method", .jstr "GET")]

/-- Request built by `files.PrivateService.CreateAccessLink`. -/
def accessLinkRequest (cfg : Config) (now : Int) (o : AccessLinkOptions) : HttpRequest :=
  { method := "POST"
    url := cfg.APIUrl ++ "/files/private/download_link"
    headers := authJsonHeaders cfg
    body := .jsonPayload (accessLinkPayload cfg now o) }

/-- Model of `strings.Trim(s, "\"")`: drop double quotes from both ends. -/
def trimQuotes (s : String) : String :=
  String.mk (((s.data.dropWhile (fun c => c = '"')).reverse.dropWhile
    (fun c => c = '"')).reverse)

/-- CreateAccessLink generates a temporary access link for a private
IPFS file, unescaping `&` and trimming quotes from the response. -/
def filesPrivateCreateAccessLink (cfg : Config) (world : World)
    (decode : String → Except String String) (now : Int)
    (opts : Option AccessLinkOptions) : OpOut String :=
  match opts with
  | none => noCall cfg "CID and expiration time are required"
  | some o =>
    if o.CID = "" ∨ o.Expires ≤ 0 then noCall cfg "CID and expiration time are required"
    else
      let req := accessLinkRequest cfg now o
      match finish world decode req with
      | .ok data => single cfg req (.ok (trimQuotes (data.replace "\\u0026" "&")))
      | .err e => single cfg req (.err e)
      | .nilDeref => single cfg req .nilDeref

/-- Request built by `files.PrivateService.Vectorize` (POST) and
`DeleteVectors` (DELETE). -/
def vectorizeRequest (cfg : Config) (method : String) (fileID : String) : HttpRequest :=
  { method := method
    url := cfg.APIUrl ++ "/vectorize/files/" ++ fileID
    headers := authJsonHeaders cfg
    body := .empty }

/-- Vectorize adds vectors to a file for text search. -/
def filesPrivateVectorize (cfg : Config) (world : World)
    (decode : String → Except String (Option VectorizeResponse))
    (fileID : String) : OpOut (Option VectorizeResponse) :=
  if fileID = "" then noCall cfg "file ID is required"
  else single cfg (vectorizeRequest cfg "POST" fileID)
    (finish world decode (vectorizeRequest cfg "POST" fileID))

/-- DeleteVectors removes vectors from a file. -/
def filesPrivateDeleteVectors (cfg : Config) (world : World)
    (decode : String → Except String (Option VectorizeResponse))
    (fileID : String) : OpOut (Option VectorizeResponse) :=
  if fileID = "" then noCall cfg "file ID is required"
  else single cfg (vectorizeRequest cfg "DELETE" fileID)
    (finish world decode (vectorizeRequest cfg "DELETE" fileID))

/-- JSON payload marshalled from `PinByHashOptions` (all fields except
the CID carry `omitempty`). -/
def pinByHashPayload (o : PinByHashOptions) : List (String × JVal) :=
  [("cid", .jstr o.CID)] ++
  (if o.Name ≠ "" then [("name", .jstr o.Name)] else []) ++
  (if o.GroupID ≠ "" then [("group_id", .jstr o.GroupID)] else []) ++
  (if o.KeyValues ≠ [] then [("keyvalues", .jmap o.KeyValues)] else []) ++
  (if o.HostNodes ≠ [] then [("host_nodes", .jarr o.HostNodes)] else [])

/-- Request built by `files.PublicService.PinByHash`. -/
def pinByHashRequest (cfg : Config) (o : PinByHashOptions) : HttpRequest :=
  { method := "POST"
    url := cfg.APIUrl ++ "/files/public/pin_by_cid"
    headers := authJsonHeaders cfg
    body := .jsonPayload (pinByHashPayload o) }

/-- PinByHash pins a CID that already exists on IPFS. -/
def filesPublicPinByHash (cfg : Config) (world : World)
    (decode : String → Except String (Option PinByHashResponse))
    (opts : Option PinByHashOptions) : OpOut (Option PinByHashResponse) :=
  match opts with
  | none => noCall cfg "CID is required"
  | some o =>
    if o.CID = "" then noCall cfg "CID is required"
    else single cfg (pinByHashRequest cfg o) (finish world decode (pinByHashRequest cfg o))

/-- Multipart form fields written by `upload.PrivateService.File`:
the network, then optionally group_id, the name (custom or the file's
base name), and the marshalled keyvalues. -/
def fileFormFields (marshalKV : List (String × String) → String)
    (f : FsFile) (opts : Option FileOptions) : List (String × String) :=
  [("network", "private")] ++
  (match opts with
   | none => []
   | some o =>
     (if o.GroupID ≠ "" then [("group_id", o.GroupID)] else []) ++
     [("name", if o.FileName ≠ "" then o.FileName else baseName f.name)] ++
     (if o.KeyValues ≠ [] then [("keyvalues", marshalKV o.KeyValues)] else []))

/-- Request built by `upload.PrivateService.File`. -/
def fileUploadRequest (cfg : Config) (marshalKV : List (String × String) → String)
    (f : FsFile) (opts : Option FileOptions) : HttpRequest :=
  { method := "POST"
    url := cfg.UploadUrl ++ "/files"
    headers := uploadHeaders cfg
    body := .multipart (fileFormFields marshalKV f opts) [(baseName f.name, f.content)] }

/-- File uploads a file to the private IPFS network. -/
def uploadPrivateFile (cfg : Config) (world : World)
    (marshalKV : List (String × String) → String)
    (decode : String → Except String (Option UploadResponse))
    (file : Option FsFile) (opts : Option FileOptions) : OpOut (Option UploadResponse) :=
  match file with
  | none => noCall cfg "file is required"
  | some f =>
    single cfg (fileUploadRequest cfg marshalKV f opts)
      (finish world decode (fileUploadRequest cfg marshalKV f opts))

/-- Multipart form fields written by `upload.PrivateService.FileArray`:
unlike `File`, the name field is written only when a custom name is
given. -/
def fileArrayFormFields (marshalKV : List (String × String) → String)
    (opts : Option FileOptions) : List (String × String) :=
  [("network", "private")] ++
  (match opts with
   | none => []
   | some o =>
     (if o.GroupID ≠ "" then [("group_id", o.GroupID)] else []) ++
     (if o.FileName ≠ "" then [("name", o.FileName)] else []) ++
     (if o.KeyValues ≠ [] then [("keyvalues", marshalKV o.KeyValues)] else []))

/-- Request built by `upload.PrivateService.FileArray`. -/
def fileArrayRequest (cfg : Config) (marshalKV : List (String × String) → String)
    (files : List FsFile) (opts : Option FileOptions) : HttpRequest :=
  { method := "POST"
    url := cfg.UploadUrl ++ "/files"
    headers := uploadHeaders cfg
    body := .multipart (fileArrayFormFields marshalKV opts)
      (files.map fun f => (baseName f.name, f.content)) }

/-- FileArray uploads multiple files as a folder. -/
def uploadPrivateFileArray (cfg : Config) (world : World)
    (marshalKV : List (String × String) → String)
    (decode : String → Except String (Option UploadResponse))
    (files : List FsFile) (opts : Option FileOptions) : OpOut (Option UploadResponse) :=
  if files = [] then noCall cfg "at least one file is required"
  else
    single cfg (fileArrayRequest cfg marshalKV files opts)
      (finish world decode (fileArrayRequest cfg marshalKV files opts))

/-- JSON uploads a JSON object.  `data` is `none` for a Go nil value and
otherwise carries the string produced by `json.Marshal`; `tmpName` is
the fresh path returned by `os.CreateTemp`.  A nil options pointer is
dereferenced unconditionally when building the file options, after the
temporary file has been staged. -/
def uploadPrivateJSON (cfg : Config) (world : World)
    (marshalKV : List (String × String) → String)
    (decode : String → Except String (Option UploadResponse))
    (tmpName : String) (data : Option String) (opts : Option JSONOptions) :
    OpOut (Option UploadResponse) :=
  match data with
  | none => noCall cfg "JSON data is required"
  | some jsonData =>
    match opts with
    | none => ⟨cfg, [.tmpCreate tmpName, .tmpRemove tmpName], .nilDeref⟩
    | some o =>
      let fileOpts : FileOptions :=
        { FileName := if o.Name ≠ "" then o.Name else "data.json"
          GroupID := o.GroupID
          KeyValues := o.KeyValues
          Vectorize := false }
      let inner := uploadPrivateFile cfg world marshalKV decode
        (some ⟨tmpName, jsonData⟩) (some fileOpts)
      ⟨cfg, [.tmpCreate tmpName] ++ inner.events ++ [.tmpRemove tmpName], inner.res⟩

/-- Base64 uploads base64-encoded data; `b64decode` models
`base64.StdEncoding.DecodeString`. -/
def uploadPrivateBase64 (cfg : Config) (world : World)
    (marshalKV : List (String × String) → String)
    (b64decode : String → Except String String)
    (decode : String → Except String (Option UploadResponse))
    (tmpName : String) (data : String) (opts : Option Base64Options) :
    OpOut (Option UploadResponse) :=
  if data = "" then noCall cfg "base64 data is required"
  else
    match b64decode data with
    | .error e => noCall cfg ("failed to decode base64 data: " ++ e)
    | .ok decoded =>
      match opts with
      | none => ⟨cfg, [.tmpCreate tmpName, .tmpRemove tmpName], .nilDeref⟩
      | some o =>
        let fileOpts : FileOptions :=
          { FileName := if o.Name ≠ "" then o.Name else "file"
            GroupID := o.GroupID
            KeyValues := o.KeyValues
            Vectorize := false }
        let inner := uploadPrivateFile cfg world marshalKV decode
          (some ⟨tmpName, decoded⟩) (some fileOpts)
        ⟨cfg, [.tmpCreate tmpName] ++ inner.events ++ [.tmpRemove tmpName], inner.res⟩

/-- The plain GET request issued by `URL` to fetch the target content. -/
def fetchRequest (targetURL : String) : HttpRequest :=
  { method := "GET", url := targetURL, headers := [], body := .empty }

/-- Default file name chosen by `URL` from the target URL, as written in
the source: the last segment of the `/`-split when non-empty, otherwise
`"file"`. -/
def urlSourceName (targetURL : String) : String :=
  let urlPath := targetURL.splitOn "/"
  if urlPath.length > 0 ∧ urlPath.getLastD "" ≠ "" then urlPath.getLastD ""
  else "file"

/-- URL uploads the content of a URL: fetch the target, stage the body
in a temporary file, and delegate to `File`. -/
def uploadPrivateURL (cfg : Config) (world : World)
    (marshalKV : List (String × String) → String)
    (decode : String → Except String (Option UploadResponse))
    (tmpName : String) (targetURL : String) (opts : Option URLOptions) :
    OpOut (Option UploadResponse) :=
  if targetURL = "" then noCall cfg "URL is required"
  else
    match world (fetchRequest targetURL) with
    | .error e => ⟨cfg, [.httpReq (fetchRequest targetURL)],
        .err ("failed to fetch URL content: " ++ e)⟩
    | .ok (st, fetched) =>
      if st ≠ 200 then ⟨cfg, [.httpReq (fetchRequest targetURL)],
        .err ("URL returned non-OK status: " ++ toString st)⟩
      else
        match opts with
        | none => ⟨cfg, [.httpReq (fetchRequest targetURL),
            .tmpCreate tmpName, .tmpRemove tmpName], .nilDeref⟩
        | some o =>
          let fileOpts : FileOptions :=
            { FileName := if o.Name ≠ "" then o.Name else urlSourceName targetURL
              GroupID := o.GroupID
              KeyValues := o.KeyValues
              Vectorize := false }
          let inner := uploadPrivateFile cfg world marshalKV decode
            (some ⟨tmpName, fetched⟩) (some fileOpts)
          ⟨cfg, [.httpReq (fetchRequest targetURL), .tmpCreate tmpName] ++
            inner.events ++ [.tmpRemove tmpName], inner.res⟩

/-- JSON payload built by `CreateSignedURL`; `now` models
`time.Now().Unix()`. -/
def signedPayload (now : Int) (o : SignedUploadOptions) : List (String × JVal) :=
  let date := if o.Date = 0 then now else o.Date
  [("date", .jnum date), ("expires", .jnum o.Expires), ("network", .jstr "private")] ++
  (if o.GroupID ≠ "" then [("group_id", .jstr o.GroupID)] else []) ++
  (if o.Name ≠ "" then [("filename", .jstr o.Name)] else []) ++
  (if o.KeyValues ≠ [] then [("keyvalues", .jmap o.KeyValues)] else []) ++
  (if o.Vectorize then [("vectorize", .jbool true)] else []) ++
  (if o.MaxFileSize > 0 then [("max_file_size", .jnum o.MaxFileSize)] else []) ++
  (if o.MimeTypes ≠ [] then [("allow_mime_types", .jarr o.MimeTypes)] else [])

/-- Request built by `upload.PrivateService.CreateSignedURL`. -/
def signRequest (cfg : Config) (now : Int) (o : SignedUploadOptions) : HttpRequest :=
  { method := "POST"
    url := cfg.UploadUrl ++ "/files/sign"
    headers := signHeaders cfg
    body := .jsonPayload (signedPayload now o) }

/-- CreateSignedURL generates a signed URL for client-side uploads.  The
payload is assembled locally and posted for server-side signing. -/
def uploadPrivateCreateSignedURL (cfg : Config) (world : World)
    (decode : String → Except String String) (now : Int)
    (opts : Option SignedUploadOptions) : OpOut String :=
  match opts with
  | none => noCall cfg "expiration time is required"
  | some o =>
    if o.Expires ≤ 0 then noCall cfg "expiration time is required"
    else single cfg (signRequest cfg now o) (finish world decode (signRequest cfg now o))

/-- Follows the spec's words for the staging helpers: write the given
content to a fresh temporary file, return exactly the result of `File`
on that temporary file with `FileOptions` carrying the given group ID
and keyvalues and with `FileName` equal to `name` when non-empty and the
given default otherwise, and remove the temporary file afterwards. -/
def specStageAndUpload (cfg : Config) (world : World)
    (marshalKV : List (String × String) → String)
    (decode : String → Except String (Option UploadResponse))
    (tmpName content name groupID : String) (kv : List (String × String))
    (defaultName : String) : OpOut (Option UploadResponse) :=
  let fileOpts : FileOptions :=
    { FileName := if name ≠ "" then name else defaultName
      GroupID := groupID
      KeyValues := kv
      Vectorize := false }
  let inner := uploadPrivateFile cfg world marshalKV decode
    (some ⟨tmpName, content⟩) (some fileOpts)
  ⟨cfg, [.tmpCreate tmpName] ++ inner.events ++ [.tmpRemove tmpName], inner.res⟩

/-- Follows the spec's words for `URL`'s default name: the last path
segment of the target URL, or `"file"` when that segment is empty. -/
def specLastSegment (targetURL : String) : String :=
  let seg := (targetURL.splitOn "/").getLastD ""
  if seg = "" then "file" else seg

/-- A concrete configuration used for closed witnesses. -/
def cfgEx : Config :=
  { PinataJWT := "jwt"
    PinataGateway := "gw"
    PinataGatewayKey := ""
    CustomHeaders := []
    APIUrl := "https://api.example"
    UploadUrl := "https://up.example" }

/-- A transport that answers every request with status 200 and an empty
body. -/
def worldOk : World := fun _ => .ok (200, "")

/-- A transport that answers every request with status 404 and the body
`"missing"`. -/
def world404 : World := fun _ => .ok (404, "missing")

/-- A decoder for closed witnesses that always returns no data. -/
def decodeNone {α : Type} : String → Except String (Option α) := fun _ => .ok none

/-- A string decoder for closed witnesses. -/
def decodeStr : String → Except String String := fun s => .ok s

/-- A keyvalues marshaller for closed witnesses. -/
def marshalKVEx : List (String × String) → String := fun _ => "kv"

/-- The complete set of field names `CreateSignedURL` can place in its
payload; in particular no client-side signature field exists. -/
def allowedSignKeys : List String :=
  ["date", "expires", "network", "group_id", "filename", "keyvalues",
   "vectorize", "max_file_size", "allow_mime_types"]

/-- A base64 decoder for closed witnesses. -/
def b64Ex : String → Except String String := fun _ => .ok "payload"

/-! Helper lemmas shared by the claim theorems. -/

theorem finish_ne_nilDeref {α : Type} (world : World)
    (decode : String → Except String α) (req : HttpRequest) :
    finish world decode req ≠ GoOut.nilDeref := by
  unfold finish
  cases world req with
  | error e => simp
  | ok p =>
    obtain ⟨st, body⟩ := p
    by_cases h : st = 200
    · simp only [h]
      cases decode body <;> simp
    · simp [h]

theorem httpCount_map_httpReq (f : String → HttpRequest) (l : List String) :
    httpCount (l.map fun id => Event.httpReq (f id)) = l.length := by
  induction l with
  | nil => rfl
  | cons x xs ih => simpa [httpCount, List.filter_cons] using ih

theorem deleteLoop_all_ok (cfg : Config) (world : World) (network : String) :
    ∀ (ids : List String) (acc : List DeleteResponse),
      (∀ id ∈ ids, httpOk world (deleteRequest cfg network id)) →
      deleteLoop cfg world network ids acc =
        (ids.map fun id => Event.httpReq (deleteRequest cfg network id),
         GoOut.ok (acc ++ ids.map fun id => DeleteResponse.mk id "deleted")) := by
  intro ids
  induction ids with
  | nil => intro acc h; simp [deleteLoop]
  | cons id rest ih =>
    intro acc h
    obtain ⟨body, hb⟩ := h id (List.mem_cons_self id rest)
    have hrest := fun i hi => h i (List.mem_cons_of_mem id hi)
    simp only [deleteLoop, hb]
    rw [ih (acc ++ [DeleteResponse.mk id "deleted"]) hrest]
    simp

theorem deleteLoop_first_fail (cfg : Config) (world : World) (network : String) :
    ∀ (pre : List String) (bad : String) (rest : List String)
      (acc : List DeleteResponse),
      (∀ id ∈ pre, httpOk world (deleteRequest cfg network id)) →
      failing world (deleteRequest cfg network bad) →
      (deleteLoop cfg world network (pre ++ bad :: rest) acc).1 =
        pre.map (fun id => Event.httpReq (deleteRequest cfg network id)) ++
          [Event.httpReq (deleteRequest cfg network bad)] ∧
      ∃ m, (deleteLoop cfg world network (pre ++ bad :: rest) acc).2 = GoOut.err m := by
  intro pre
  induction pre with
  | nil =>
    intro bad rest acc hpre hbad
    rcases hbad with ⟨e, he⟩ | ⟨st, body, hw, hst⟩
    · simp [deleteLoop, he]
    · simp [deleteLoop, hw, hst]
  | cons p ps ih =>
    intro bad rest acc hpre hbad
    obtain ⟨body, hb⟩ := hpre p (List.mem_cons_self p ps)
    have hps := fun i hi => hpre i (List.mem_cons_of_mem p hi)
    obtain ⟨h1, m, h2⟩ := ih bad rest (acc ++ [DeleteResponse.mk p "deleted"]) hps hbad
    simp only [List.cons_append, deleteLoop, hb]
    refine ⟨?_, m, ?_⟩ <;> simp [h1, h2]

theorem finish_err_of_status {α : Type} (world : World)
    (decode : String → Except String α) (req : HttpRequest) (st : Nat)
    (body : String) (hw : world req = .ok (st, body)) (hst : st ≠ 200) :
    finish world decode req = .err (apiErrMsg st body) := by
  unfold finish
  rw [hw]
  simp [hst]

theorem finish_ok_inv {α : Type} (world : World)
    (decode : String → Except String α) (req : HttpRequest) (v : α)
    (h : finish world decode req = .ok v) :
    ∃ body, world req = .ok (200, body) ∧ decode body = .ok v := by
  unfold finish at h
  cases hw : world req with
  | error e => rw [hw] at h; simp at h
  | ok p =>
    obtain ⟨st, body⟩ := p
    rw [hw] at h
    by_cases hst : st = 200
    · subst hst
      simp only [ne_eq, not_true_eq_false, if_false, reduceIte] at h
      cases hdec : decode body with
      | error e => rw [hdec] at h; simp at h
      | ok w =>
        rw [hdec] at h
        simp only [GoOut.ok.injEq] at h
        exact ⟨body, rfl, by rw [hdec, h]⟩
    · simp [hst] at h

theorem apiErrMsg_contains_status (st : Nat) (body : String) :
    strContains (apiErrMsg st body) (toString st) :=
  ⟨"API error (status ", "): " ++ body, by simp [apiErrMsg, String.append_assoc]⟩

theorem apiErrMsg_contains_body (st : Nat) (body : String) :
    strContains (apiErrMsg st body) body := by
  refine ⟨"API error (status " ++ toString st ++ "): ", "", ?_⟩
  simp [apiErrMsg, String.append_assoc]

/-- C7: every operation leaves the client configuration unchanged: the
configuration value after any service method call is identical to the
one before it; operations only read it. -/
theorem c7_config_frame :
    (∀ cfg world dec id, (filesPrivateGet cfg world dec id).cfg = cfg) ∧
    (∀ cfg world dec opts, (filesPrivateList cfg world dec opts).cfg = cfg) ∧
    (∀ cfg world dec opts, (filesPrivateUpdate cfg world dec opts).cfg = cfg) ∧
    (∀ cfg world ids, (filesPrivateDelete cfg world ids).cfg = cfg) ∧
    (∀ cfg world ids, (filesPublicDelete cfg world ids).cfg = cfg) ∧
    (∀ cfg world dec opts, (filesPrivateAddSwap cfg world dec opts).cfg = cfg) ∧
    (∀ cfg world esc dec opts,
      (filesPrivateGetSwapHistory cfg world esc dec opts).cfg = cfg) ∧
    (∀ cfg world cid, (filesPrivateDeleteSwap cfg world cid).cfg = cfg) ∧
    (∀ cfg world dec now opts,
      (filesPrivateCreateAccessLink cfg world dec now opts).cfg = cfg) ∧
    (∀ cfg world dec fileID, (filesPrivateVectorize cfg world dec fileID).cfg = cfg) ∧
    (∀ cfg world dec fileID,
      (filesPrivateDeleteVectors cfg world dec fileID).cfg = cfg) ∧
    (∀ cfg world dec opts, (filesPublicPinByHash cfg world dec opts).cfg = cfg) ∧
    (∀ cfg world mkv dec file opts,
      (uploadPrivateFile cfg world mkv dec file opts).cfg = cfg) ∧
    (∀ cfg world mkv dec files opts,
      (uploadPrivateFileArray cfg world mkv dec files opts).cfg = cfg) ∧
    (∀ cfg world mkv dec tmp data opts,
      (uploadPrivateJSON cfg world mkv dec tmp data opts).cfg = cfg) ∧
    (∀ cfg world mkv b64 dec tmp data opts,
      (uploadPrivateBase64 cfg world mkv b64 dec tmp data opts).cfg = cfg) ∧
    (∀ cfg world mkv dec tmp targetURL opts,
      (uploadPrivateURL cfg world mkv dec tmp targetURL opts).cfg = cfg) ∧
    (∀ cfg world dec now opts,
      (uploadPrivateCreateSignedURL cfg world dec now opts).cfg = cfg) := by
  refine ⟨?_, ?_, ?_, ?_, ?_, ?_, ?_, ?_, ?_, ?_, ?_, ?_, ?_, ?_, ?_, ?_, ?_, ?_⟩ <;> intros
  · rfl
  · rfl
  · unfold filesPrivateUpdate
    repeat' first | rfl | split | dsimp only
  · unfold filesPrivateDelete
    repeat' first | rfl | split | dsimp only
  · unfold filesPublicDelete
    repeat' first | rfl | split | dsimp only
  · unfold filesPrivateAddSwap
    repeat' first | rfl | split | dsimp only
  · unfold filesPrivateGetSwapHistory
    repeat' first | rfl | split | dsimp only
  · unfold filesPrivateDeleteSwap
    repeat' first | rfl | split | dsimp only
  · unfold filesPrivateCreateAccessLink
    repeat' first | rfl | split | dsimp only
  · unfold filesPrivateVectorize
    repeat' first | rfl | split | dsimp only
  · unfold filesPrivateDeleteVectors
    repeat' first | rfl | split | dsimp only
  · unfold filesPublicPinByHash
    repeat' first | rfl | split | dsimp only
  · unfold uploadPrivateFile
    repeat' first | rfl | split | dsimp only
  · unfold uploadPrivateFileArray
    repeat' first | rfl | split | dsimp only
  · unfold uploadPrivateJSON
    repeat' first | rfl | split | dsimp only
  · unfold uploadPrivateBase64
    repeat' first | rfl | split | dsimp only
  · unfold uploadPrivateURL
    repeat' first | rfl | split | dsimp only
  · unfold uploadPrivateCreateSignedURL
    repeat' first | rfl | split | dsimp only

/-- C1 counterexample: the claim that every operation issues exactly one
HTTP request per call is false at a concrete input: one call to Delete
with the two IDs a and b issues two requests, and one call to URL issues
a fetch request plus an upload request, also two. -/
theorem c1_counterexample :
    httpCount (filesPrivateDelete cfgEx worldOk ["a", "b"]).events = 2 ∧
    httpCount (filesPrivateDelete cfgEx worldOk ["a", "b"]).events ≠ 1 ∧
    httpCount (uploadPrivateURL cfgEx worldOk marshalKVEx decodeNone
      "/tmp/t" "http://h/y" (some ⟨"", "", [], false⟩)).events = 2 := by
  refine ⟨by decide, by decide, by decide⟩

/-- C1 amended: every operation that passes its argument guards issues
exactly one HTTP request per call, except that Delete issues exactly one
request per input ID when all succeed, and URL issues one fetch request
for the target plus the single upload request. -/
theorem c1_amended :
    (∀ cfg world dec id, httpCount (filesPrivateGet cfg world dec id).events = 1) ∧
    (∀ cfg world dec opts, httpCount (filesPrivateList cfg world dec opts).events = 1) ∧
    (∀ cfg world dec o, o.ID ≠ "" →
      httpCount (filesPrivateUpdate cfg world dec (some o)).events = 1) ∧
    (∀ cfg world dec o, ¬(o.CID = "" ∨ o.SwapCID = "") →
      httpCount (filesPrivateAddSwap cfg world dec (some o)).events = 1) ∧
    (∀ cfg world esc dec o, ¬(o.CID = "" ∨ o.Domain = "") →
      httpCount (filesPrivateGetSwapHistory cfg world esc dec (some o)).events = 1) ∧
    (∀ cfg world cid, cid ≠ "" →
      httpCount (filesPrivateDeleteSwap cfg world cid).events = 1) ∧
    (∀ cfg world dec now o, ¬(o.CID = "" ∨ o.Expires ≤ 0) →
      httpCount (filesPrivateCreateAccessLink cfg world dec now (some o)).events = 1) ∧
    (∀ cfg world dec fileID, fileID ≠ "" →
      httpCount (filesPrivateVectorize cfg world dec fileID).events = 1) ∧
    (∀ cfg world dec fileID, fileID ≠ "" →
      httpCount (filesPrivateDeleteVectors cfg world dec fileID).events = 1) ∧
    (∀ cfg world dec o, o.CID ≠ "" →
      httpCount (filesPublicPinByHash cfg world dec (some o)).events = 1) ∧
    (∀ cfg world mkv dec f opts,
      httpCount (uploadPrivateFile cfg world mkv dec (some f) opts).events = 1) ∧
    (∀ cfg world mkv dec files opts, files ≠ [] →
      httpCount (uploadPrivateFileArray cfg world mkv dec files opts).events = 1) ∧
    (∀ cfg world mkv dec tmp d o,
      httpCount (uploadPrivateJSON cfg world mkv dec tmp (some d) (some o)).events = 1) ∧
    (∀ cfg world mkv b64 dec tmp data decoded o, data ≠ "" → b64 data = .ok decoded →
      httpCount (uploadPrivateBase64 cfg world mkv b64 dec tmp data (some o)).events = 1) ∧
    (∀ cfg world dec now o, ¬o.Expires ≤ 0 →
      httpCount (uploadPrivateCreateSignedURL cfg world dec now (some o)).events = 1) ∧
    (∀ cfg world ids, ids ≠ [] →
      (∀ id ∈ ids, httpOk world (deleteRequest cfg "private" id)) →
      httpCount (filesPrivateDelete cfg world ids).events = ids.length) ∧
    (∀ cfg world mkv dec tmp targetURL fetched o, targetURL ≠ "" →
      world (fetchRequest targetURL) = .ok (200, fetched) →
      httpCount (uploadPrivateURL cfg world mkv dec tmp targetURL (some o)).events = 2) := by
  refine ⟨?_, ?_, ?_, ?_, ?_, ?_, ?_, ?_, ?_, ?_, ?_, ?_, ?_, ?_, ?_, ?_, ?_⟩
  · intro cfg world dec id; simp [filesPrivateGet, single, httpCount]
  · intro cfg world dec opts; simp [filesPrivateList, single, httpCount]
  · intro cfg world dec o h; simp [filesPrivateUpdate, h, single, httpCount]
  · intro cfg world dec o h; simp [filesPrivateAddSwap, h, single, httpCount]
  · intro cfg world esc dec o h
    simp [filesPrivateGetSwapHistory, h, single, httpCount]
  · intro cfg world cid h; simp [filesPrivateDeleteSwap, h, single, httpCount]
  · intro cfg world dec now o h
    simp only [filesPrivateCreateAccessLink]
    rw [if_neg h]
    cases finish world dec (accessLinkRequest cfg now o) <;>
      simp [single, httpCount]
  · intro cfg world dec fileID h; simp [filesPrivateVectorize, h, single, httpCount]
  · intro cfg world dec fileID h
    simp [filesPrivateDeleteVectors, h, single, httpCount]
  · intro cfg world dec o h; simp [filesPublicPinByHash, h, single, httpCount]
  · intro cfg world mkv dec f opts; simp [uploadPrivateFile, single, httpCount]
  · intro cfg world mkv dec files opts h
    simp [uploadPrivateFileArray, h, single, httpCount]
  · intro cfg world mkv dec tmp d o
    simp [uploadPrivateJSON, uploadPrivateFile, single, httpCount]
  · intro cfg world mkv b64 dec tmp data decoded o h hdec
    simp [uploadPrivateBase64, h, hdec, uploadPrivateFile, single, httpCount]
  · intro cfg world dec now o h
    simp [uploadPrivateCreateSignedURL, h, single, httpCount]
  · intro cfg world ids h hall
    unfold filesPrivateDelete
    rw [if_neg h]
    dsimp only
    rw [deleteLoop_all_ok cfg world "private" ids [] hall]
    exact httpCount_map_httpReq _ ids
  · intro cfg world mkv dec tmp targetURL fetched o h hw
    simp [uploadPrivateURL, h, hw, uploadPrivateFile, single, httpCount]

/-- C1 amended witness: the amended statement evaluated at concrete
inputs, discharging the guards. -/
theorem c1_amended_witness :
    httpCount (filesPrivateUpdate cfgEx worldOk decodeNone
      (some ⟨"fid", "", []⟩)).events = 1 ∧
    httpCount (filesPrivateDelete cfgEx worldOk ["a"]).events = 1 ∧
    httpCount (uploadPrivateURL cfgEx worldOk marshalKVEx decodeNone
      "/tmp/t" "http://h/y" (some ⟨"", "", [], false⟩)).events = 2 := by
  refine ⟨?_, ?_, ?_⟩
  · exact c1_amended.2.2.1 cfgEx worldOk decodeNone ⟨"fid", "", []⟩ (by decide)
  · exact c1_amended.2.2.2.2.2.2.2.2.2.2.2.2.2.2.2.1 cfgEx worldOk ["a"]
      (by decide) (fun id _ => ⟨"", rfl⟩)
  · exact c1_amended.2.2.2.2.2.2.2.2.2.2.2.2.2.2.2.2 cfgEx worldOk marshalKVEx
      decodeNone "/tmp/t" "http://h/y" "" ⟨"", "", [], false⟩ (by decide) rfl

set_option maxHeartbeats 3000000 in
/-- C2: with non-nil options and positive expiry, CreateSignedURL posts
to UploadUrl/files/sign a payload whose date is the option's date when
nonzero and the current Unix time otherwise, whose expires and network
fields are as given, whose optional fields appear exactly when their
option is set, and which draws only from a fixed key set with no
client-side signature; with nil options or non-positive expiry it
returns an error and issues no request. -/
theorem c2_signed_url_payload :
    (∀ cfg world dec now o, ¬o.Expires ≤ 0 →
      (uploadPrivateCreateSignedURL cfg world dec now (some o)).events
        = [Event.httpReq (signRequest cfg now o)] ∧
      (signRequest cfg now o).url = cfg.UploadUrl ++ "/files/sign" ∧
      (signRequest cfg now o).body = ReqBody.jsonPayload (signedPayload now o)) ∧
    (∀ now o,
      getField (signedPayload now o) "date" =
        some (.jnum (if o.Date = 0 then now else o.Date)) ∧
      getField (signedPayload now o) "expires" = some (.jnum o.Expires) ∧
      getField (signedPayload now o) "network" = some (.jstr "private")) ∧
    (∀ now o, getField (signedPayload now o) "max_file_size" =
      if o.MaxFileSize > 0 then some (.jnum o.MaxFileSize) else none) ∧
    (∀ now o, getField (signedPayload now o) "allow_mime_types" =
      if o.MimeTypes ≠ [] then some (.jarr o.MimeTypes) else none) ∧
    (∀ now o, getField (signedPayload now o) "group_id" =
      if o.GroupID ≠ "" then some (.jstr o.GroupID) else none) ∧
    (∀ now o, getField (signedPayload now o) "filename" =
      if o.Name ≠ "" then some (.jstr o.Name) else none) ∧
    (∀ now o, getField (signedPayload now o) "vectorize" =
      if o.Vectorize then some (.jbool true) else none) ∧
    (∀ cfg world dec now,
      (uploadPrivateCreateSignedURL cfg world dec now none).events = [] ∧
      ∃ m, (uploadPrivateCreateSignedURL cfg world dec now none).res = .err m) ∧
    (∀ cfg world dec now o, o.Expires ≤ 0 →
      (uploadPrivateCreateSignedURL cfg world dec now (some o)).events = [] ∧
      ∃ m, (uploadPrivateCreateSignedURL cfg world dec now (some o)).res = .err m) ∧
    (∀ now o, (signedPayload now o).all
      (fun kv => allowedSignKeys.contains kv.1) = true) := by
  refine ⟨?_, ?_, ?_, ?_, ?_, ?_, ?_, ?_, ?_, ?_⟩
  · intro cfg world dec now o h
    refine ⟨?_, rfl, rfl⟩
    simp [uploadPrivateCreateSignedURL, h, single]
  · intro now o
    refine ⟨?_, ?_, ?_⟩ <;> simp [signedPayload, getField]
  · intro now o
    by_cases hg : o.GroupID = "" <;>
    by_cases hn : o.Name = "" <;>
    by_cases hk : o.KeyValues = [] <;>
    by_cases hv : o.Vectorize <;>
    by_cases hm : o.MaxFileSize > 0 <;>
    by_cases hmt : o.MimeTypes = [] <;>
    simp [signedPayload, getField, hg, hn, hk, hv, hm, hmt]
  · intro now o
    by_cases hg : o.GroupID = "" <;>
    by_cases hn : o.Name = "" <;>
    by_cases hk : o.KeyValues = [] <;>
    by_cases hv : o.Vectorize <;>
    by_cases hm : o.MaxFileSize > 0 <;>
    by_cases hmt : o.MimeTypes = [] <;>
    simp [signedPayload, getField, hg, hn, hk, hv, hm, hmt]
  · intro now o
    by_cases hg : o.GroupID = "" <;>
    by_cases hn : o.Name = "" <;>
    by_cases hk : o.KeyValues = [] <;>
    by_cases hv : o.Vectorize <;>
    by_cases hm : o.MaxFileSize > 0 <;>
    by_cases hmt : o.MimeTypes = [] <;>
    simp [signedPayload, getField, hg, hn, hk, hv, hm, hmt]
  · intro now o
    by_cases hg : o.GroupID = "" <;>
    by_cases hn : o.Name = "" <;>
    by_cases hk : o.KeyValues = [] <;>
    by_cases hv : o.Vectorize <;>
    by_cases hm : o.MaxFileSize > 0 <;>
    by_cases hmt : o.MimeTypes = [] <;>
    simp [signedPayload, getField, hg, hn, hk, hv, hm, hmt]
  · intro now o
    by_cases hg : o.GroupID = "" <;>
    by_cases hn : o.Name = "" <;>
    by_cases hk : o.KeyValues = [] <;>
    by_cases hv : o.Vectorize <;>
    by_cases hm : o.MaxFileSize > 0 <;>
    by_cases hmt : o.MimeTypes = [] <;>
    simp [signedPayload, getField, hg, hn, hk, hv, hm, hmt]
  · intro cfg world dec now
    exact ⟨rfl, _, rfl⟩
  · intro cfg world dec now o h
    constructor
    · simp [uploadPrivateCreateSignedURL, h, noCall]
    · refine ⟨"expiration time is required", ?_⟩
      simp [uploadPrivateCreateSignedURL, h, noCall]
  · intro now o
    by_cases hg : o.GroupID = "" <;>
    by_cases hn : o.Name = "" <;>
    by_cases hk : o.KeyValues = [] <;>
    by_cases hv : o.Vectorize <;>
    by_cases hm : o.MaxFileSize > 0 <;>
    by_cases hmt : o.MimeTypes = [] <;>
    simp [signedPayload, allowedSignKeys, hg, hn, hk, hv, hm, hmt]

set_option maxHeartbeats 2000000 in
/-- C2 witness: the signed-URL payload facts at a concrete option value,
with the guards discharged. -/
theorem c2_signed_url_payload_witness :
    (uploadPrivateCreateSignedURL cfgEx worldOk decodeStr 77
      (some ⟨0, 60, "g1", "", [], true, 0, []⟩)).events
      = [Event.httpReq (signRequest cfgEx 77 ⟨0, 60, "g1", "", [], true, 0, []⟩)] ∧
    getField (signedPayload 77 ⟨0, 60, "g1", "", [], true, 0, []⟩) "group_id"
      = some (.jstr "g1") ∧
    getField (signedPayload 77 ⟨0, 60, "g1", "", [], true, 0, []⟩) "max_file_size"
      = none ∧
    (uploadPrivateCreateSignedURL cfgEx worldOk decodeStr 77
      (some ⟨0, 0, "g1", "", [], true, 0, []⟩)).events = [] := by
  refine ⟨?_, ?_, ?_, ?_⟩
  · exact (c2_signed_url_payload.1 cfgEx worldOk decodeStr 77 _ (by decide)).1
  · have := (c2_signed_url_payload.2.2.2.2.1 77 ⟨0, 60, "g1", "", [], true, 0, []⟩)
    simpa using this
  · have := (c2_signed_url_payload.2.2.1 77 ⟨0, 60, "g1", "", [], true, 0, []⟩)
    simpa using this
  · exact (c2_signed_url_payload.2.2.2.2.2.2.2.2.1 cfgEx worldOk decodeStr 77
      ⟨0, 0, "g1", "", [], true, 0, []⟩ (by decide)).1

/-- C3: when the server answers with a status other than 200, the
operation returns no value and an error message containing the status
code and the response body; a value is returned only when the status is
200 and the envelope decodes, and then the envelope's data field is the
value returned.  Stated for the file-retrieval and file-upload
operations. -/
theorem c3_status_and_envelope :
    (∀ cfg world dec id st body,
      world (getRequest cfg id) = .ok (st, body) → st ≠ 200 →
        (filesPrivateGet cfg world dec id).res = GoOut.err (apiErrMsg st body) ∧
        strContains (apiErrMsg st body) (toString st) ∧
        strContains (apiErrMsg st body) body) ∧
    (∀ cfg world dec id v,
      (filesPrivateGet cfg world dec id).res = GoOut.ok v →
        ∃ body, world (getRequest cfg id) = .ok (200, body) ∧ dec body = .ok v) ∧
    (∀ cfg world mkv dec f opts st body,
      world (fileUploadRequest cfg mkv f opts) = .ok (st, body) → st ≠ 200 →
        (uploadPrivateFile cfg world mkv dec (some f) opts).res
          = GoOut.err (apiErrMsg st body) ∧
        strContains (apiErrMsg st body) (toString st) ∧
        strContains (apiErrMsg st body) body) ∧
    (∀ cfg world mkv dec f opts v,
      (uploadPrivateFile cfg world mkv dec (some f) opts).res = GoOut.ok v →
        ∃ body, world (fileUploadRequest cfg mkv f opts) = .ok (200, body) ∧
          dec body = .ok v) := by
  refine ⟨?_, ?_, ?_, ?_⟩
  · intro cfg world dec id st body hw hst
    exact ⟨by simpa [filesPrivateGet, single] using
        finish_err_of_status world dec (getRequest cfg id) st body hw hst,
      apiErrMsg_contains_status st body, apiErrMsg_contains_body st body⟩
  · intro cfg world dec id v h
    exact finish_ok_inv world dec (getRequest cfg id) v
      (by simpa [filesPrivateGet, single] using h)
  · intro cfg world mkv dec f opts st body hw hst
    exact ⟨by simpa [uploadPrivateFile, single] using
        finish_err_of_status world dec (fileUploadRequest cfg mkv f opts) st body hw hst,
      apiErrMsg_contains_status st body, apiErrMsg_contains_body st body⟩
  · intro cfg world mkv dec f opts v h
    exact finish_ok_inv world dec (fileUploadRequest cfg mkv f opts) v
      (by simpa [uploadPrivateFile, single] using h)

/-- C3 witness: at a concrete world answering 404 with body missing,
the get operation returns exactly the formatted API error. -/
theorem c3_status_and_envelope_witness :
    (filesPrivateGet cfgEx world404 (@decodeNone File) "x").res
      = GoOut.err (apiErrMsg 404 "missing") ∧
    strContains (apiErrMsg 404 "missing") "404" :=
  ⟨(c3_status_and_envelope.1 cfgEx world404 (@decodeNone File) "x" 404 "missing"
      rfl (by decide)).1,
   (c3_status_and_envelope.1 cfgEx world404 (@decodeNone File) "x" 404 "missing"
      rfl (by decide)).2.1⟩

theorem urlSourceName_eq_spec (u : String) : urlSourceName u = specLastSegment u := by
  unfold urlSourceName specLastSegment
  by_cases h : (u.splitOn "/").getLast?.getD "" = ""
  · simp [List.getLastD_eq_getLast?, h]
  · have hne : u.splitOn "/" ≠ [] := by
      intro he
      rw [he] at h
      simp at h
    simp [List.getLastD_eq_getLast?, h, List.length_pos.mpr hne]

/-- C4: the JSON, Base64 and URL helpers are equivalent to staging their
content in a fresh temporary file and returning exactly the result of
File on it with options carrying the group ID, the keyvalues, and the
custom name or the documented default (data.json, file, or the last path
segment of the target URL, or file when that segment is empty); in each
case the temporary file is removed afterwards. -/
theorem c4_staging_refinement :
    (∀ cfg world mkv dec tmp d o,
      uploadPrivateJSON cfg world mkv dec tmp (some d) (some o) =
        specStageAndUpload cfg world mkv dec tmp d o.Name o.GroupID
          o.KeyValues "data.json" ∧
      (uploadPrivateJSON cfg world mkv dec tmp (some d) (some o)).events.getLast?
        = some (.tmpRemove tmp)) ∧
    (∀ cfg world mkv b64 dec tmp data decoded o, data ≠ "" →
      b64 data = .ok decoded →
      uploadPrivateBase64 cfg world mkv b64 dec tmp data (some o) =
        specStageAndUpload cfg world mkv dec tmp decoded o.Name o.GroupID
          o.KeyValues "file" ∧
      (uploadPrivateBase64 cfg world mkv b64 dec tmp data (some o)).events.getLast?
        = some (.tmpRemove tmp)) ∧
    (∀ cfg world mkv dec tmp targetURL fetched o, targetURL ≠ "" →
      world (fetchRequest targetURL) = .ok (200, fetched) →
      (uploadPrivateURL cfg world mkv dec tmp targetURL (some o)).res =
        (specStageAndUpload cfg world mkv dec tmp fetched o.Name o.GroupID
          o.KeyValues (specLastSegment targetURL)).res ∧
      (uploadPrivateURL cfg world mkv dec tmp targetURL (some o)).events =
        Event.httpReq (fetchRequest targetURL) ::
          (specStageAndUpload cfg world mkv dec tmp fetched o.Name o.GroupID
            o.KeyValues (specLastSegment targetURL)).events ∧
      (uploadPrivateURL cfg world mkv dec tmp targetURL (some o)).events.getLast?
        = some (.tmpRemove tmp)) := by
  refine ⟨?_, ?_, ?_⟩
  · intro cfg world mkv dec tmp d o
    exact ⟨rfl, by simp [uploadPrivateJSON, uploadPrivateFile, single]⟩
  · intro cfg world mkv b64 dec tmp data decoded o h hdec
    constructor
    · simp [uploadPrivateBase64, h, hdec, specStageAndUpload]
    · simp [uploadPrivateBase64, h, hdec, uploadPrivateFile, single]
  · intro cfg world mkv dec tmp targetURL fetched o h hw
    refine ⟨?_, ?_, ?_⟩ <;>
      simp [uploadPrivateURL, h, hw, specStageAndUpload, urlSourceName_eq_spec,
        uploadPrivateFile, single]

/-- C4 witness: the staging equivalences at concrete inputs with guards
discharged. -/
theorem c4_staging_refinement_witness :
    uploadPrivateBase64 cfgEx worldOk marshalKVEx b64Ex decodeNone
      "/tmp/b" "QQ==" (some ⟨"", "g", [], false⟩) =
      specStageAndUpload cfgEx worldOk marshalKVEx decodeNone
        "/tmp/b" "payload" "" "g" [] "file" ∧
    (uploadPrivateURL cfgEx worldOk marshalKVEx decodeNone
      "/tmp/u" "http://h/seg" (some ⟨"", "", [], false⟩)).res =
      (specStageAndUpload cfgEx worldOk marshalKVEx decodeNone
        "/tmp/u" "" "" "" [] (specLastSegment "http://h/seg")).res :=
  ⟨(c4_staging_refinement.2.1 cfgEx worldOk marshalKVEx b64Ex decodeNone
      "/tmp/b" "QQ==" "payload" ⟨"", "g", [], false⟩ (by decide) rfl).1,
   (c4_staging_refinement.2.2 cfgEx worldOk marshalKVEx decodeNone
      "/tmp/u" "http://h/seg" "" ⟨"", "", [], false⟩ (by decide) rfl).1⟩

/-- C6: with non-nil options, non-empty CID and positive expiry,
CreateAccessLink posts to APIUrl/files/private/download_link a payload
whose url names the option's gateway when non-empty and the configured
gateway otherwise, whose date is the option's date when nonzero and the
current Unix time otherwise, whose expires matches the option, and whose
method is GET; otherwise it returns an error and issues no request. -/
theorem c6_access_link_payload :
    (∀ cfg world dec now o, ¬(o.CID = "" ∨ o.Expires ≤ 0) →
      (filesPrivateCreateAccessLink cfg world dec now (some o)).events
        = [Event.httpReq (accessLinkRequest cfg now o)] ∧
      (accessLinkRequest cfg now o).url
        = cfg.APIUrl ++ "/files/private/download_link" ∧
      (accessLinkRequest cfg now o).body
        = ReqBody.jsonPayload (accessLinkPayload cfg now o) ∧
      getField (accessLinkPayload cfg now o) "url" =
        some (.jstr ("https://" ++
          (if o.Gateway ≠ "" then o.Gateway else cfg.PinataGateway) ++
          ".mypinata.cloud/files/" ++ o.CID)) ∧
      getField (accessLinkPayload cfg now o) "date" =
        some (.jnum (if o.Date = 0 then now else o.Date)) ∧
      getField (accessLinkPayload cfg now o) "expires" = some (.jnum o.Expires) ∧
      getField (accessLinkPayload cfg now o) "method" = some (.jstr "GET")) ∧
    (∀ cfg world dec now,
      (filesPrivateCreateAccessLink cfg world dec now none).events = [] ∧
      ∃ m, (filesPrivateCreateAccessLink cfg world dec now none).res = .err m) ∧
    (∀ cfg world dec now o, o.CID = "" ∨ o.Expires ≤ 0 →
      (filesPrivateCreateAccessLink cfg world dec now (some o)).events = [] ∧
      ∃ m, (filesPrivateCreateAccessLink cfg world dec now (some o)).res = .err m) := by
  refine ⟨?_, ?_, ?_⟩
  · intro cfg world dec now o h
    refine ⟨?_, rfl, rfl, ?_, ?_, ?_, ?_⟩
    · simp only [filesPrivateCreateAccessLink]
      rw [if_neg h]
      cases finish world dec (accessLinkRequest cfg now o) <;> simp [single]
    · by_cases hg : o.Gateway = "" <;>
        simp [accessLinkPayload, accessLinkGateway, getField, hg]
    · simp [accessLinkPayload, getField]
    · simp [accessLinkPayload, getField]
    · simp [accessLinkPayload, getField]
  · intro cfg world dec now
    exact ⟨rfl, _, rfl⟩
  · intro cfg world dec now o h
    constructor
    · simp [filesPrivateCreateAccessLink, h, noCall]
    · refine ⟨"CID and expiration time are required", ?_⟩
      simp [filesPrivateCreateAccessLink, h, noCall]

/-- C6 witness: the access-link payload facts at a concrete option
value, with the guards discharged. -/
theorem c6_access_link_payload_witness :
    (filesPrivateCreateAccessLink cfgEx worldOk decodeStr 9
      (some ⟨"cid1", 0, 30, ""⟩)).events
      = [Event.httpReq (accessLinkRequest cfgEx 9 ⟨"cid1", 0, 30, ""⟩)] ∧
    getField (accessLinkPayload cfgEx 9 ⟨"cid1", 0, 30, ""⟩) "url" =
      some (.jstr "https://gw.mypinata.cloud/files/cid1") ∧
    (filesPrivateCreateAccessLink cfgEx worldOk decodeStr 9
      (some ⟨"", 0, 30, ""⟩)).events = [] := by
  refine ⟨?_, ?_, ?_⟩
  · exact (c6_access_link_payload.1 cfgEx worldOk decodeStr 9
      ⟨"cid1", 0, 30, ""⟩ (by decide)).1
  · have := (c6_access_link_payload.1 cfgEx worldOk decodeStr 9
      ⟨"cid1", 0, 30, ""⟩ (by decide)).2.2.2.1
    simpa [cfgEx] using this
  · exact (c6_access_link_payload.2.2 cfgEx worldOk decodeStr 9
      ⟨"", 0, 30, ""⟩ (Or.inl rfl)).1

/-- C8: calling JSON, Base64 or URL with a nil options pointer reaches
an unconditional dereference of the options and ends in a nil-pointer
panic rather than an error, while File and FileArray tolerate nil
options. -/
theorem c8_nil_options :
    (∀ cfg world mkv dec tmp d,
      (uploadPrivateJSON cfg world mkv dec tmp (some d) none).res
        = GoOut.nilDeref) ∧
    (∀ cfg world mkv b64 dec tmp data decoded, data ≠ "" →
      b64 data = .ok decoded →
      (uploadPrivateBase64 cfg world mkv b64 dec tmp data none).res
        = GoOut.nilDeref) ∧
    (∀ cfg world mkv dec tmp u fetched, u ≠ "" →
      world (fetchRequest u) = .ok (200, fetched) →
      (uploadPrivateURL cfg world mkv dec tmp u none).res = GoOut.nilDeref) ∧
    (∀ cfg world mkv dec file opts,
      (uploadPrivateFile cfg world mkv dec file opts).res ≠ GoOut.nilDeref) ∧
    (∀ cfg world mkv dec files opts,
      (uploadPrivateFileArray cfg world mkv dec files opts).res
        ≠ GoOut.nilDeref) := by
  refine ⟨?_, ?_, ?_, ?_, ?_⟩
  · intro cfg world mkv dec tmp d
    rfl
  · intro cfg world mkv b64 dec tmp data decoded h hdec
    simp [uploadPrivateBase64, h, hdec]
  · intro cfg world mkv dec tmp u fetched h hw
    simp [uploadPrivateURL, h, hw]
  · intro cfg world mkv dec file opts
    cases file with
    | none => simp [uploadPrivateFile, noCall]
    | some f =>
      simpa [uploadPrivateFile, single] using
        finish_ne_nilDeref world dec (fileUploadRequest cfg mkv f opts)
  · intro cfg world mkv dec files opts
    by_cases h : files = []
    · simp [uploadPrivateFileArray, h, noCall]
    · simpa [uploadPrivateFileArray, h, single] using
        finish_ne_nilDeref world dec (fileArrayRequest cfg mkv files opts)

/-- C8 witness: with a nil options pointer the Base64 helper ends in the
nil-dereference outcome at a concrete input, while File accepts nil
options. -/
theorem c8_nil_options_witness :
    (uploadPrivateBase64 cfgEx worldOk marshalKVEx b64Ex decodeNone
      "/tmp/b" "QQ==" none).res = GoOut.nilDeref ∧
    (uploadPrivateFile cfgEx worldOk marshalKVEx decodeNone
      (some ⟨"/tmp/f", "c"⟩) none).res ≠ GoOut.nilDeref :=
  ⟨c8_nil_options.2.1 cfgEx worldOk marshalKVEx b64Ex decodeNone
      "/tmp/b" "QQ==" "payload" (by decide) rfl,
   c8_nil_options.2.2.2.1 cfgEx worldOk marshalKVEx decodeNone
      (some ⟨"/tmp/f", "c"⟩) none⟩

/-- C9: for a non-empty ID list where every per-ID request succeeds,
Delete returns one client-side DeleteResponse per input ID in order,
each with status deleted regardless of the response bodies; when an ID
fails, the requests for the earlier IDs have already been sent and the
call returns an error with no slice; an empty list returns an error with
no request.  Stated for the private and public services. -/
theorem c9_delete_semantics :
    (∀ cfg world ids, ids ≠ [] →
      (∀ id ∈ ids, httpOk world (deleteRequest cfg "private" id)) →
      (filesPrivateDelete cfg world ids).res
        = GoOut.ok (ids.map fun id => DeleteResponse.mk id "deleted") ∧
      (filesPrivateDelete cfg world ids).events
        = ids.map fun id => Event.httpReq (deleteRequest cfg "private" id)) ∧
    (∀ cfg world pre bad rest,
      (∀ id ∈ pre, httpOk world (deleteRequest cfg "private" id)) →
      failing world (deleteRequest cfg "private" bad) →
      (∃ m, (filesPrivateDelete cfg world (pre ++ bad :: rest)).res
        = GoOut.err m) ∧
      (filesPrivateDelete cfg world (pre ++ bad :: rest)).events
        = pre.map (fun id => Event.httpReq (deleteRequest cfg "private" id)) ++
          [Event.httpReq (deleteRequest cfg "private" bad)]) ∧
    (∀ cfg world, (filesPrivateDelete cfg world []).events = [] ∧
      ∃ m, (filesPrivateDelete cfg world []).res = GoOut.err m) ∧
    (∀ cfg world ids, ids ≠ [] →
      (∀ id ∈ ids, httpOk world (deleteRequest cfg "public" id)) →
      (filesPublicDelete cfg world ids).res
        = GoOut.ok (ids.map fun id => DeleteResponse.mk id "deleted") ∧
      (filesPublicDelete cfg world ids).events
        = ids.map fun id => Event.httpReq (deleteRequest cfg "public" id)) ∧
    (∀ cfg world pre bad rest,
      (∀ id ∈ pre, httpOk world (deleteRequest cfg "public" id)) →
      failing world (deleteRequest cfg "public" bad) →
      (∃ m, (filesPublicDelete cfg world (pre ++ bad :: rest)).res
        = GoOut.err m) ∧
      (filesPublicDelete cfg world (pre ++ bad :: rest)).events
        = pre.map (fun id => Event.httpReq (deleteRequest cfg "public" id)) ++
          [Event.httpReq (deleteRequest cfg "public" bad)]) ∧
    (∀ cfg world, (filesPublicDelete cfg world []).events = [] ∧
      ∃ m, (filesPublicDelete cfg world []).res = GoOut.err m) := by
  refine ⟨?_, ?_, ?_, ?_, ?_, ?_⟩
  · intro cfg world ids h hall
    unfold filesPrivateDelete
    rw [if_neg h]
    rw [deleteLoop_all_ok cfg world "private" ids [] hall]
    simp
  · intro cfg world pre bad rest hpre hbad
    have hne : pre ++ bad :: rest ≠ [] := by simp
    obtain ⟨h1, m, h2⟩ :=
      deleteLoop_first_fail cfg world "private" pre bad rest [] hpre hbad
    unfold filesPrivateDelete
    rw [if_neg hne]
    exact ⟨⟨m, h2⟩, h1⟩
  · intro cfg world
    exact ⟨rfl, _, rfl⟩
  · intro cfg world ids h hall
    unfold filesPublicDelete
    rw [if_neg h]
    rw [deleteLoop_all_ok cfg world "public" ids [] hall]
    simp
  · intro cfg world pre bad rest hpre hbad
    have hne : pre ++ bad :: rest ≠ [] := by simp
    obtain ⟨h1, m, h2⟩ :=
      deleteLoop_first_fail cfg world "public" pre bad rest [] hpre hbad
    unfold filesPublicDelete
    rw [if_neg hne]
    exact ⟨⟨m, h2⟩, h1⟩
  · intro cfg world
    exact ⟨rfl, _, rfl⟩

/-- C9 witness: two succeeding IDs produce two in-order deleted entries,
and a failing first ID after a succeeding one still sends the first
request; evaluated at concrete worlds. -/
theorem c9_delete_semantics_witness :
    (filesPrivateDelete cfgEx worldOk ["a", "b"]).res
      = GoOut.ok [⟨"a", "deleted"⟩, ⟨"b", "deleted"⟩] ∧
    (filesPublicDelete cfgEx world404 ["z"]).events
      = [Event.httpReq (deleteRequest cfgEx "public" "z")] ∧
    (filesPrivateDelete cfgEx worldOk []).events = [] := by
  refine ⟨?_, ?_, ?_⟩
  · exact (c9_delete_semantics.1 cfgEx worldOk ["a", "b"] (by decide)
      (fun id _ => ⟨"", rfl⟩)).1
  · have := (c9_delete_semantics.2.2.2.2.1 cfgEx world404 [] "z" []
      (fun id hid => absurd hid (List.not_mem_nil id))
      (Or.inr ⟨404, "missing", rfl, by decide⟩)).2
    simpa using this
  · exact (c9_delete_semantics.2.2.1 cfgEx worldOk).1

/-- C10: the multipart forms built by File and FileArray never contain a
vectorize field, for any options value, so FileOptions.Vectorize is
ignored by the upload path, whereas CreateSignedURL places vectorize
true in its payload whenever the option is set. -/
theorem c10_vectorize_ignored :
    (∀ mkv f opts, hasKeyStr (fileFormFields mkv f opts) "vectorize" = false) ∧
    (∀ cfg world mkv dec f opts,
      (uploadPrivateFile cfg world mkv dec (some f) opts).events
        = [Event.httpReq (fileUploadRequest cfg mkv f opts)] ∧
      (fileUploadRequest cfg mkv f opts).body
        = ReqBody.multipart (fileFormFields mkv f opts)
            [(baseName f.name, f.content)]) ∧
    (∀ mkv opts, hasKeyStr (fileArrayFormFields mkv opts) "vectorize" = false) ∧
    (∀ cfg world mkv dec files opts, files ≠ [] →
      (uploadPrivateFileArray cfg world mkv dec files opts).events
        = [Event.httpReq (fileArrayRequest cfg mkv files opts)] ∧
      (fileArrayRequest cfg mkv files opts).body
        = ReqBody.multipart (fileArrayFormFields mkv opts)
            (files.map fun f => (baseName f.name, f.content))) ∧
    (∀ now o, o.Vectorize = true →
      getField (signedPayload now o) "vectorize" = some (.jbool true)) := by
  refine ⟨?_, ?_, ?_, ?_, ?_⟩
  · intro mkv f opts
    cases opts with
    | none => simp [fileFormFields, hasKeyStr]
    | some o =>
      by_cases hg : o.GroupID = "" <;>
      by_cases hk : o.KeyValues = [] <;>
      simp [fileFormFields, hasKeyStr, hg, hk]
  · intro cfg world mkv dec f opts
    exact ⟨by simp [uploadPrivateFile, single], rfl⟩
  · intro mkv opts
    cases opts with
    | none => simp [fileArrayFormFields, hasKeyStr]
    | some o =>
      by_cases hg : o.GroupID = "" <;>
      by_cases hn : o.FileName = "" <;>
      by_cases hk : o.KeyValues = [] <;>
      simp [fileArrayFormFields, hasKeyStr, hg, hn, hk]
  · intro cfg world mkv dec files opts h
    exact ⟨by simp [uploadPrivateFileArray, h, single], rfl⟩
  · intro now o hv
    by_cases hg : o.GroupID = "" <;>
    by_cases hn : o.Name = "" <;>
    by_cases hk : o.KeyValues = [] <;>
    simp [signedPayload, getField, hv, hg, hn, hk]

/-- C10 witness: with Vectorize set the upload form still has no
vectorize field while the signed-URL payload does, at concrete
options. -/
theorem c10_vectorize_ignored_witness :
    hasKeyStr (fileFormFields marshalKVEx ⟨"/tmp/f", "c"⟩
      (some ⟨"n", "g", [], true⟩)) "vectorize" = false ∧
    (uploadPrivateFileArray cfgEx worldOk marshalKVEx decodeNone
      [⟨"/tmp/f", "c"⟩] (some ⟨"n", "g", [], true⟩)).events
      = [Event.httpReq (fileArrayRequest cfgEx marshalKVEx
          [⟨"/tmp/f", "c"⟩] (some ⟨"n", "g", [], true⟩))] ∧
    getField (signedPayload 5 ⟨0, 60, "", "", [], true, 0, []⟩) "vectorize"
      = some (.jbool true) :=
  ⟨c10_vectorize_ignored.1 marshalKVEx ⟨"/tmp/f", "c"⟩ (some ⟨"n", "g", [], true⟩),
   (c10_vectorize_ignored.2.2.2.1 cfgEx worldOk marshalKVEx decodeNone
      [⟨"/tmp/f", "c"⟩] (some ⟨"n", "g", [], true⟩) (by decide)).1,
   c10_vectorize_ignored.2.2.2.2 5 ⟨0, 60, "", "", [], true, 0, []⟩ rfl⟩

@[simp] theorem httpReqs_nil : httpReqs [] = [] := rfl

@[simp] theorem httpReqs_cons_req (r : HttpRequest) (l : List Event) :
    httpReqs (Event.httpReq r :: l) = r :: httpReqs l := by
  simp [httpReqs]

@[simp] theorem httpReqs_cons_create (n : String) (l : List Event) :
    httpReqs (Event.tmpCreate n :: l) = httpReqs l := by
  simp [httpReqs]

@[simp] theorem httpReqs_cons_remove (n : String) (l : List Event) :
    httpReqs (Event.tmpRemove n :: l) = httpReqs l := by
  simp [httpReqs]

theorem finish_err_of_failing {α : Type} (world : World)
    (decode : String → Except String α) (req : HttpRequest)
    (h : failing world req) : ∃ m, finish world decode req = .err m := by
  rcases h with ⟨e, he⟩ | ⟨st, body, hw, hst⟩
  · exact ⟨sendErrMsg e, by unfold finish; rw [he]⟩
  · exact ⟨apiErrMsg st body, finish_err_of_status world decode req st body hw hst⟩

theorem not_failing_of_ok (world : World) (req : HttpRequest) (body : String)
    (hw : world req = .ok (200, body)) : ¬ failing world req := by
  rintro (⟨e, he⟩ | ⟨st, b, hw2, hst⟩)
  · rw [hw] at he; exact absurd he (by simp)
  · rw [hw] at hw2
    injection hw2 with h
    injection h with h1 h2
    exact hst h1.symm

theorem getLast?_cons_ne {α : Type} (a : α) (l : List α) (h : l ≠ []) :
    (a :: l).getLast? = l.getLast? := by
  cases l with
  | nil => exact absurd rfl h
  | cons b m => simp [List.getLast?_cons_cons]

theorem single_finish_no_retry {α : Type} (cfg : Config) (world : World)
    (decode : String → Except String α) (req r : HttpRequest)
    (hr : r ∈ httpReqs (single cfg req (finish world decode req)).events)
    (hf : failing world r) :
    (∃ m, (single cfg req (finish world decode req)).res = .err m) ∧
    (httpReqs (single cfg req (finish world decode req)).events).getLast?
      = some r ∧
    (httpReqs (single cfg req (finish world decode req)).events).count r = 1 := by
  have hreq : r = req := by simpa [single] using hr
  subst hreq
  exact ⟨finish_err_of_failing world decode r hf, by simp [single], by simp [single]⟩

theorem fetch_ne_upload (u : String) (cfg : Config)
    (mkv : List (String × String) → String) (f : FsFile)
    (opts : Option FileOptions) :
    fetchRequest u ≠ fileUploadRequest cfg mkv f opts := by
  intro h
  have := congrArg HttpRequest.method h
  simp [fetchRequest, fileUploadRequest] at this

theorem deleteLoop_no_retry (cfg : Config) (world : World) (network : String) :
    ∀ (ids : List String) (acc : List DeleteResponse) (r : HttpRequest),
      r ∈ httpReqs (deleteLoop cfg world network ids acc).1 →
      failing world r →
      (∃ m, (deleteLoop cfg world network ids acc).2 = GoOut.err m) ∧
      (httpReqs (deleteLoop cfg world network ids acc).1).getLast? = some r ∧
      (httpReqs (deleteLoop cfg world network ids acc).1).count r = 1 := by
  intro ids
  induction ids with
  | nil => intro acc r hr hf; simp [deleteLoop] at hr
  | cons id rest ih =>
    intro acc r hr hf
    cases hw : world (deleteRequest cfg network id) with
    | error e =>
      simp only [deleteLoop, hw] at hr ⊢
      have hreq : r = deleteRequest cfg network id := by simpa using hr
      subst hreq
      exact ⟨⟨_, rfl⟩, by simp, by simp⟩
    | ok p =>
      obtain ⟨st, body⟩ := p
      by_cases hst : st = 200
      · subst hst
        have hnf := not_failing_of_ok world (deleteRequest cfg network id) body hw
        simp only [deleteLoop, hw, ne_eq, not_true_eq_false, if_false, reduceIte] at hr ⊢
        rw [httpReqs_cons_req] at hr
        rcases List.mem_cons.mp hr with hreq | hr2
        · exact absurd (hreq ▸ hf) hnf
        · obtain ⟨he, hl, hc⟩ := ih (acc ++ [DeleteResponse.mk id "deleted"]) r hr2 hf
          have hne : r ≠ deleteRequest cfg network id := by
            intro h
            exact hnf (h ▸ hf)
          refine ⟨he, ?_, ?_⟩
          · rw [httpReqs_cons_req,
              getLast?_cons_ne _ _ (List.ne_nil_of_mem hr2)]
            exact hl
          · rw [httpReqs_cons_req, List.count_cons_of_ne hne]
            exact hc
      · simp only [deleteLoop, hw] at hr ⊢
        rw [if_pos hst] at hr ⊢
        have hreq : r = deleteRequest cfg network id := by simpa using hr
        subst hreq
        exact ⟨⟨_, rfl⟩, by simp, by simp⟩

/-- C5: when a request fails at the transport level or receives a
non-200 status, the operation returns an error immediately and never
sends that request a second time: the failing request is the last one
issued and occurs exactly once in the trace.  Stated for get, list,
upload, signed URL, per-ID delete and URL staging. -/
theorem c5_no_retry_after_failure :
    (∀ cfg world dec id r,
      r ∈ httpReqs (filesPrivateGet cfg world dec id).events →
      failing world r →
      (∃ m, (filesPrivateGet cfg world dec id).res = .err m) ∧
      (httpReqs (filesPrivateGet cfg world dec id).events).getLast? = some r ∧
      (httpReqs (filesPrivateGet cfg world dec id).events).count r = 1) ∧
    (∀ cfg world dec opts r,
      r ∈ httpReqs (filesPrivateList cfg world dec opts).events →
      failing world r →
      (∃ m, (filesPrivateList cfg world dec opts).res = .err m) ∧
      (httpReqs (filesPrivateList cfg world dec opts).events).getLast? = some r ∧
      (httpReqs (filesPrivateList cfg world dec opts).events).count r = 1) ∧
    (∀ cfg world mkv dec f opts r,
      r ∈ httpReqs (uploadPrivateFile cfg world mkv dec (some f) opts).events →
      failing world r →
      (∃ m, (uploadPrivateFile cfg world mkv dec (some f) opts).res = .err m) ∧
      (httpReqs (uploadPrivateFile cfg world mkv dec (some f) opts).events).getLast?
        = some r ∧
      (httpReqs (uploadPrivateFile cfg world mkv dec (some f) opts).events).count r
        = 1) ∧
    (∀ cfg world dec now opts r,
      r ∈ httpReqs (uploadPrivateCreateSignedURL cfg world dec now opts).events →
      failing world r →
      (∃ m, (uploadPrivateCreateSignedURL cfg world dec now opts).res = .err m) ∧
      (httpReqs (uploadPrivateCreateSignedURL cfg world dec now opts).events).getLast?
        = some r ∧
      (httpReqs (uploadPrivateCreateSignedURL cfg world dec now opts).events).count r
        = 1) ∧
    (∀ cfg world ids r,
      r ∈ httpReqs (filesPrivateDelete cfg world ids).events →
      failing world r →
      (∃ m, (filesPrivateDelete cfg world ids).res = .err m) ∧
      (httpReqs (filesPrivateDelete cfg world ids).events).getLast? = some r ∧
      (httpReqs (filesPrivateDelete cfg world ids).events).count r = 1) ∧
    (∀ cfg world mkv dec tmp u opts r,
      r ∈ httpReqs (uploadPrivateURL cfg world mkv dec tmp u opts).events →
      failing world r →
      (∃ m, (uploadPrivateURL cfg world mkv dec tmp u opts).res = .err m) ∧
      (httpReqs (uploadPrivateURL cfg world mkv dec tmp u opts).events).getLast?
        = some r ∧
      (httpReqs (uploadPrivateURL cfg world mkv dec tmp u opts).events).count r
        = 1) := by
  refine ⟨?_, ?_, ?_, ?_, ?_, ?_⟩
  · intro cfg world dec id r hr hf
    exact single_finish_no_retry cfg world dec (getRequest cfg id) r hr hf
  · intro cfg world dec opts r hr hf
    exact single_finish_no_retry cfg world dec (listRequest cfg opts) r hr hf
  · intro cfg world mkv dec f opts r hr hf
    exact single_finish_no_retry cfg world dec (fileUploadRequest cfg mkv f opts) r hr hf
  · intro cfg world dec now opts r hr hf
    cases opts with
    | none => simp [uploadPrivateCreateSignedURL, noCall] at hr
    | some o =>
      by_cases h : o.Expires ≤ 0
      · simp [uploadPrivateCreateSignedURL, h, noCall] at hr
      · have e : uploadPrivateCreateSignedURL cfg world dec now (some o) =
            single cfg (signRequest cfg now o)
              (finish world dec (signRequest cfg now o)) := by
          simp [uploadPrivateCreateSignedURL, h]
        rw [e] at hr ⊢
        exact single_finish_no_retry cfg world dec (signRequest cfg now o) r hr hf
  · intro cfg world ids r hr hf
    by_cases h : ids = []
    · subst h
      simp [filesPrivateDelete, noCall] at hr
    · have e : filesPrivateDelete cfg world ids =
          ⟨cfg, (deleteLoop cfg world "private" ids []).1,
            (deleteLoop cfg world "private" ids []).2⟩ := by
        simp [filesPrivateDelete, h]
      rw [e] at hr ⊢
      exact deleteLoop_no_retry cfg world "private" ids [] r hr hf
  · intro cfg world mkv dec tmp u opts r hr hf
    by_cases hu : u = ""
    · simp [uploadPrivateURL, hu, noCall] at hr
    · cases hw : world (fetchRequest u) with
      | error e =>
        simp only [uploadPrivateURL, if_neg hu, hw] at hr ⊢
        have hreq : r = fetchRequest u := by simpa using hr
        subst hreq
        exact ⟨⟨_, rfl⟩, by simp, by simp⟩
      | ok p =>
        obtain ⟨st, fetched⟩ := p
        by_cases hst : st = 200
        · subst hst
          have hnf := not_failing_of_ok world (fetchRequest u) fetched hw
          cases opts with
          | none =>
            simp only [uploadPrivateURL, if_neg hu, hw, ne_eq,
              not_true_eq_false, if_false, reduceIte] at hr
            have hreq : r = fetchRequest u := by simpa using hr
            exact absurd (hreq ▸ hf) hnf
          | some o =>
            simp only [uploadPrivateURL, if_neg hu, hw, ne_eq,
              not_true_eq_false, if_false, reduceIte, uploadPrivateFile,
              single] at hr ⊢
            simp only [List.cons_append, List.nil_append, List.singleton_append,
              httpReqs_cons_req, httpReqs_cons_create, httpReqs_cons_remove,
              httpReqs_nil] at hr ⊢
            rcases List.mem_cons.mp hr with hreq | hr2
            · exact absurd (hreq ▸ hf) hnf
            · have hreq : r = fileUploadRequest cfg mkv ⟨tmp, fetched⟩
                  (some { FileName := if ¬o.Name = "" then o.Name else urlSourceName u
                          GroupID := o.GroupID
                          KeyValues := o.KeyValues
                          Vectorize := false }) := by
                simpa using hr2
              have hne : fileUploadRequest cfg mkv ⟨tmp, fetched⟩
                  (some { FileName := if ¬o.Name = "" then o.Name else urlSourceName u
                          GroupID := o.GroupID
                          KeyValues := o.KeyValues
                          Vectorize := false }) ≠ fetchRequest u :=
                Ne.symm (fetch_ne_upload u cfg mkv ⟨tmp, fetched⟩ _)
              subst hreq
              refine ⟨finish_err_of_failing world dec _ hf, ?_, ?_⟩
              · simp
              · rw [List.count_cons_of_ne hne]
                simp
        · simp only [uploadPrivateURL, if_neg hu, hw] at hr ⊢
          rw [if_pos hst] at hr ⊢
          have hreq : r = fetchRequest u := by simpa using hr
          subst hreq
          exact ⟨⟨_, rfl⟩, by simp, by simp⟩

/-- C5 witness: at a concrete world failing with 404, the get operation
returns an error and its only request is final and unrepeated. -/
theorem c5_no_retry_after_failure_witness :
    (∃ m, (filesPrivateGet cfgEx world404 (@decodeNone File) "x").res = .err m) ∧
    (httpReqs (filesPrivateGet cfgEx world404 (@decodeNone File) "x").events).count
      (getRequest cfgEx "x") = 1 := by
  have h := c5_no_retry_after_failure.1 cfgEx world404 (@decodeNone File) "x"
    (getRequest cfgEx "x") (by simp [filesPrivateGet, single])
    (Or.inr ⟨404, "missing", rfl, by decide⟩)
  exact ⟨h.1, h.2.2⟩
